import Mathlib

/-!
Verification of the batch Mermaid-to-PNG converter
(`.github/scripts/mermaid-to-png.mjs`).

The script is embedded shallowly: the filesystem, the `mermaid` renderer, the
`resvg` rasterizer, `fs.mkdir`, `fs.writeFile` and `Date.now` are oracles
carried in an `Env` record; the script's own control flow (`renderOne`, the
`main` loop, the exit-code policy of `main().catch(...)`) is translated
function-by-function.  Every effect the script performs is recorded in an
explicit trace of `Effect`s so that claims about writes, directory creation
and ordering can be stated.

String helpers are written by structural recursion over `String.data` so that
all definitions evaluate inside the kernel (`decide` / `rfl`) on concrete
inputs.
-/

/-! ### Character and string helpers (POSIX paths, JS regex semantics) -/

/-- JS `\w` (ASCII word character): letter, digit or underscore. -/
def isWordChar (c : Char) : Bool :=
  ('a' ≤ c && c ≤ 'z') || ('A' ≤ c && c ≤ 'Z') || ('0' ≤ c && c ≤ '9') || c == '_'

/-- One pass of JS `str.replace(/\W+/g, "_")`: every maximal run of
non-word characters becomes a single underscore.  The boolean records
whether we are currently inside such a run. -/
def collapseRuns : Bool → List Char → List Char
  | _, [] => []
  | inRun, c :: rest =>
    if isWordChar c then c :: collapseRuns false rest
    else if inRun then collapseRuns true rest
    else '_' :: collapseRuns true rest

/-- `basename.replace(/\W+/g, "_")` from the script. -/
def sanitize (s : String) : String := ⟨collapseRuns false s.data⟩

/-- ASCII lower-casing of one character (JS case-insensitive matching). -/
def lowerChar (c : Char) : Char :=
  if 'A' ≤ c && c ≤ 'Z' then Char.ofNat (c.toNat + 32) else c

/-- ASCII lower-casing of a string. -/
def lowerStr (s : String) : String := ⟨s.data.map lowerChar⟩

/-- Split a character list at a separator character. -/
def splitOnChar (sep : Char) : List Char → List (List Char)
  | [] => [[]]
  | c :: rest =>
    let r := splitOnChar sep rest
    if c == sep then [] :: r
    else
      match r with
      | [] => [[c]]
      | h :: t => (c :: h) :: t

/-- `path.basename` (POSIX): the part after the last `/`. -/
def basename (p : String) : String := ⟨(splitOnChar '/' p.data).getLastD []⟩

/-- Does the string start with `/` (absolute POSIX path)? -/
def isAbsPath (p : String) : Bool :=
  match p.data with
  | '/' :: _ => true
  | _ => false

/-- `path.resolve(cwd, p)` for already-normalized inputs: an absolute path is
kept, a relative one is anchored at the working directory. -/
def resolvePath (cwd p : String) : String :=
  if isAbsPath p then p else cwd ++ "/" ++ p

/-- `path.join` for already-normalized components. -/
def joinPath (dir name : String) : String := dir ++ "/" ++ name

/-- `path.relative(cwd, p)` for the common case used in log lines: strip the
working-directory prefix when present. -/
def relativePath (cwd p : String) : String :=
  let pre := (cwd ++ "/").data
  if pre.isPrefixOf p.data then ⟨p.data.drop pre.length⟩ else p

/-- Case-insensitive `String.endsWith` (the `/i` flag of the extension regex). -/
def endsWithCI (name suffix : String) : Bool :=
  suffix.data.isSuffixOf (lowerStr name).data

/-- `name.replace(/\.(mmd|mermaid|txt)$/i, ".png")`: the extension is replaced
only when it is one of the three recognized source extensions (the three
alternatives are mutually exclusive as suffixes, so testing them in order is
the regex's behaviour). -/
def replaceSrcExt (name : String) : String :=
  if endsWithCI name ".mmd" then (⟨name.data.take (name.data.length - 4)⟩ : String) ++ ".png"
  else if endsWithCI name ".mermaid" then (⟨name.data.take (name.data.length - 8)⟩ : String) ++ ".png"
  else if endsWithCI name ".txt" then (⟨name.data.take (name.data.length - 4)⟩ : String) ++ ".png"
  else name

/-- A path is hidden when some `/`-separated segment starts with a dot
(`fast-glob`'s `dot: false` behaviour); `.` and `..` segments are not hidden
entries. -/
def hiddenPath (p : String) : Bool :=
  (splitOnChar '/' p.data).any fun seg =>
    match seg with
    | '.' :: rest => !(rest.isEmpty) && rest ≠ ['.']
    | _ => false

/-- The internal diagram id of the script:
`` `mmd_${path.basename(mmdPath).replace(/\W+/g, "_")}_${Date.now()}` ``. -/
def mkId (base : String) (now : Nat) : String :=
  "mmd_" ++ sanitize base ++ "_" ++ Nat.repr now

/-! ### Configuration, environment and effect trace -/

/-- The three environment-variable configuration inputs with their defaults. -/
structure Config where
  inputPattern : String
  outputDir : String
  theme : String
deriving DecidableEq

/-- `INPUT_PATTERN`, `OUTPUT_DIR`, `MERMAID_THEME` defaults from the script. -/
def defaultConfig : Config :=
  { inputPattern := "diagrams/**/*.mmd", outputDir := "diagrams", theme := "default" }

/-- One filesystem entry visible to the glob: an (absolute) path and whether
it is a directory. -/
structure FsEntry where
  path : String
  isDir : Bool
deriving DecidableEq

/-- An observable effect performed by the script, in program order.
`write` is recorded only when the byte buffer actually lands on disk;
`mkdir` records the `recursive` flag passed to `fs.mkdir`. -/
inductive Effect where
  | read (path : String)
  | render (id code : String)
  | rasterize (svg : String)
  | mkdir (dir : String) (recursive : Bool)
  | write (path : String) (data : List Nat)
deriving DecidableEq

/-- The oracles of the embedding: the outside world as the script sees it.
`clock` maps the index of a `Date.now()` call to its value; `globError`
models `fast-glob` itself throwing (a run-fatal condition). -/
structure Env where
  cwd : String
  fs : List FsEntry
  globMatch : String → String → Bool
  globError : Option String
  readFile : String → Except String String
  mermaidRender : String → String → Except String String
  resvgPng : String → Except String (List Nat)
  mkdirRec : String → Except String Unit
  writeFile : String → List Nat → Except String Unit
  clock : Nat → Nat

/-- The options record the script passes to `fast-glob`. -/
structure GlobOptions where
  dot : Bool
  absolute : Bool
  onlyFiles : Bool
  unique : Bool
  caseSensitiveMatch : Bool
deriving DecidableEq

/-- Modelled from the spec: the `fast-glob` dependency is not part of this
repository, so its documented option semantics are modelled per the spec's
File Locator contract — match the pattern (case-insensitively when
`caseSensitiveMatch` is false, via case-folding both sides), keep only
non-directory entries when `onlyFiles`, drop dot-files unless `dot`, and
deduplicate when `unique`.  The pattern matcher itself stays abstract
(`gmatch`), supplied by the environment. -/
def fgModel (gmatch : String → String → Bool) (fs : List FsEntry)
    (pattern : String) (opts : GlobOptions) : List String :=
  let phit := fun p =>
    if opts.caseSensitiveMatch then gmatch pattern p
    else gmatch (lowerStr pattern) (lowerStr p)
  let kept := fs.filter fun e =>
    phit e.path && (!opts.onlyFiles || !e.isDir) && (opts.dot || !hiddenPath e.path)
  let paths := kept.map FsEntry.path
  if opts.unique then paths.dedup else paths

/-- The exact options object of the call in `main`:
`{ dot: false, absolute: true, onlyFiles: true, unique: true,
   caseSensitiveMatch: false }`. -/
def mainGlobOpts : GlobOptions :=
  { dot := false, absolute := true, onlyFiles := true, unique := true,
    caseSensitiveMatch := false }

/-- The file list produced by the `fg([INPUT_PATTERN], …)` call in `main`. -/
def locatedFiles (cfg : Config) (env : Env) : List String :=
  fgModel env.globMatch env.fs cfg.inputPattern mainGlobOpts

/-! ### `renderOne` -/

deriving instance DecidableEq for Except

/-- Result of one `renderOne(mmdPath)` call: the returned value or the thrown
error, the effect trace of the call, and the number of `Date.now()` calls
made so far after it. -/
structure StepOut where
  result : Except String String
  effects : List Effect
  tick : Nat
deriving DecidableEq

/-- `renderOne` from the script, step for step: read the source, build the
id from the sanitized basename and `Date.now()`, render to SVG, rasterize to
PNG bytes, resolve and (recursively) create the output directory, and write
`<basename with source extension replaced by .png>` into it.  The first
oracle failure aborts the call with that error (the JS `await` rejection). -/
def renderOne (cfg : Config) (env : Env) (t : Nat) (mmdPath : String) : StepOut :=
  match env.readFile mmdPath with
  | .error e => ⟨.error e, [.read mmdPath], t⟩
  | .ok code =>
    let id := mkId (basename mmdPath) (env.clock t)
    match env.mermaidRender id code with
    | .error e => ⟨.error e, [.read mmdPath, .render id code], t + 1⟩
    | .ok svg =>
      match env.resvgPng svg with
      | .error e => ⟨.error e, [.read mmdPath, .render id code, .rasterize svg], t + 1⟩
      | .ok png =>
        let outDir := resolvePath env.cwd cfg.outputDir
        match env.mkdirRec outDir with
        | .error e =>
          ⟨.error e,
            [.read mmdPath, .render id code, .rasterize svg, .mkdir outDir true], t + 1⟩
        | .ok _ =>
          let outPath := joinPath outDir (replaceSrcExt (basename mmdPath))
          match env.writeFile outPath png with
          | .error e =>
            ⟨.error e,
              [.read mmdPath, .render id code, .rasterize svg, .mkdir outDir true], t + 1⟩
          | .ok _ =>
            ⟨.ok outPath,
              [.read mmdPath, .render id code, .rasterize svg, .mkdir outDir true,
                .write outPath png], t + 1⟩

/-! ### The `main` loop -/

/-- The state threaded through the per-file loop: the two counters, the
console lines printed so far, the accumulated effect trace, and the
`Date.now()` call counter. -/
structure LoopState where
  ok : Nat
  fail : Nat
  console : List String
  effects : List Effect
  tick : Nat
deriving DecidableEq

/-- The `✗ Failed: …` line of the catch branch (`${f}\n${e.stack || e}`). -/
def failLine (f e : String) : String := "✗ Failed: " ++ f ++ "\n" ++ e

/-- The `✓ …` line of the success branch. -/
def okLine (cwd f out : String) : String :=
  "✓ " ++ relativePath cwd f ++ " → " ++ relativePath cwd out

/-- The final `Done. Success: …, Failed: …` summary line. -/
def summaryLine (ok fail : Nat) : String :=
  "Done. Success: " ++ Nat.repr ok ++ ", Failed: " ++ Nat.repr fail

/-- The informational line of the zero-match case. -/
def noMatchLine (pattern : String) : String :=
  "No Mermaid files matched pattern: " ++ pattern

/-- The body of one iteration of `for (const f of files) { try … catch … }`:
any error from `renderOne` is caught, logged with the file path and error
detail, and counted; a success is logged and counted. -/
def processFile (cfg : Config) (env : Env) (st : LoopState) (f : String) : LoopState :=
  let r := renderOne cfg env st.tick f
  match r.result with
  | .ok out =>
    { ok := st.ok + 1, fail := st.fail,
      console := st.console ++ [okLine env.cwd f out],
      effects := st.effects ++ r.effects, tick := r.tick }
  | .error e =>
    { ok := st.ok, fail := st.fail + 1,
      console := st.console ++ [failLine f e],
      effects := st.effects ++ r.effects, tick := r.tick }

/-- The sequential per-file loop. -/
def runFiles (cfg : Config) (env : Env) : List String → LoopState → LoopState
  | [], st => st
  | f :: rest, st => runFiles cfg env rest (processFile cfg env st f)

/-- `main()`: glob, early return on zero matches, otherwise the loop followed
by the summary line.  A `fast-glob` throw propagates as the error case. -/
def mainRun (cfg : Config) (env : Env) : Except String LoopState :=
  match env.globError with
  | some e => .error e
  | none =>
    let files := locatedFiles cfg env
    if files.isEmpty then
      .ok { ok := 0, fail := 0, console := [noMatchLine cfg.inputPattern],
            effects := [], tick := 0 }
    else
      let st0 : LoopState :=
        { ok := 0, fail := 0,
          console := ["Rendering " ++ Nat.repr files.length ++
            " Mermaid file(s) to PNG (no browser)..."],
          effects := [], tick := 0 }
      let st := runFiles cfg env files st0
      .ok { st with console := st.console ++ [summaryLine st.ok st.fail] }

/-- `main().catch(e => { console.error(e); process.exit(1); })`: a resolved
`main` exits 0, a rejected one exits 1. -/
def exitCode (cfg : Config) (env : Env) : Nat :=
  match mainRun cfg env with
  | .ok _ => 0
  | .error _ => 1

/-! ### Derived observations used in the statements -/

/-- The paths of the successful disk writes in a trace. -/
def writtenPaths (effs : List Effect) : List String :=
  effs.filterMap fun e =>
    match e with
    | .write p _ => some p
    | _ => none

/-- What a per-file step should have written, read off its result: nothing on
failure, exactly its returned output path on success. -/
def expectedWrites : Except String String → List String
  | .error _ => []
  | .ok p => [p]

/-- The written paths contributed by each file of a batch, file by file, with
the `Date.now` counter threaded exactly as the loop threads it. -/
def batchWrittenPaths (cfg : Config) (env : Env) : List String → Nat → List String
  | [], _ => []
  | f :: rest, t =>
    let r := renderOne cfg env t f
    writtenPaths r.effects ++ batchWrittenPaths cfg env rest r.tick

/-- Whether `renderOne` at tick `t` on `f` gets past read, render and
rasterize (the point at which the script calls `ensureDir`). -/
def reachesMkdir (_cfg : Config) (env : Env) (t : Nat) (f : String) : Bool :=
  match env.readFile f with
  | .error _ => false
  | .ok code =>
    match env.mermaidRender (mkId (basename f) (env.clock t)) code with
    | .error _ => false
    | .ok svg =>
      match env.resvgPng svg with
      | .error _ => false
      | .ok _ => true

/-- Whether any file of the batch reaches the `ensureDir` call. -/
def anyReachesMkdir (cfg : Config) (env : Env) : List String → Nat → Bool
  | [], _ => false
  | f :: rest, t =>
    reachesMkdir cfg env t f || anyReachesMkdir cfg env rest (renderOne cfg env t f).tick

/-! ### Spec-side definition for the output-naming claim -/

/-- The output naming rule as the spec sentence reads literally: the input
basename with its (final, dot-separated) source extension replaced by
`".png"`.  Defined only to compare the spec's wording with the code's
behaviour (`replaceSrcExt`). -/
def specOutName (name : String) : String :=
  if '.' ∈ name.data then
    (⟨((name.data.reverse.dropWhile fun c => c != '.').drop 1).reverse⟩ : String) ++ ".png"
  else name ++ ".png"

/-! ### Derived run observations and concrete test fixtures -/

/-- The loop state of a resolved run (dummy state for a rejected one). -/
def stOf (cfg : Config) (env : Env) : LoopState :=
  match mainRun cfg env with
  | .ok st => st
  | .error _ => { ok := 0, fail := 0, console := [], effects := [], tick := 0 }

/-- The internal diagram identifiers passed to the renderer, in call order. -/
def renderIds (effs : List Effect) : List String :=
  effs.filterMap fun e =>
    match e with
    | .render i _ => some i
    | _ => none

/-- A configuration with a distinct output directory, used by the concrete
runs below. -/
def cfgA : Config :=
  { inputPattern := "diagrams/**/*.mmd", outputDir := "out", theme := "default" }

/-- A concrete environment: two matched diagram files, the second of which
fails to parse; everything else succeeds. -/
def envA : Env :=
  { cwd := "/repo"
    fs := [⟨"/repo/diagrams/a.mmd", false⟩, ⟨"/repo/diagrams/bad.mmd", false⟩]
    globMatch := fun _ p => (".mmd".data).isSuffixOf p.data
    globError := none
    readFile := fun p => .ok ("src:" ++ p)
    mermaidRender := fun _ code =>
      if code = "src:/repo/diagrams/bad.mmd" then .error "Parse error on line 1"
      else .ok "<svg>ok</svg>"
    resvgPng := fun _ => .ok [137, 80, 78, 71]
    mkdirRec := fun _ => .ok ()
    writeFile := fun _ _ => .ok ()
    clock := fun i => 41 + i }

/-- Like `envA` but with a single valid file and a failing `fs.mkdir`. -/
def envB : Env :=
  { envA with
    fs := [⟨"/repo/diagrams/a.mmd", false⟩]
    mkdirRec := fun _ => .error "EACCES: permission denied, mkdir /repo/out" }

/-- A pattern selecting `.svg` sources (the extensions are configurable via
`INPUT_PATTERN`). -/
def cfgC : Config :=
  { inputPattern := "diagrams/**/*.svg", outputDir := "out", theme := "default" }

/-- Environment with one matched `.svg` input file, everything succeeding. -/
def envC : Env :=
  { envA with
    fs := [⟨"/repo/diagrams/a.svg", false⟩]
    globMatch := fun _ p => (".svg".data).isSuffixOf p.data }

/-- Two matched files with the same basename in different directories and a
clock frozen inside one millisecond. -/
def envD : Env :=
  { envA with
    fs := [⟨"/repo/d1/x.mmd", false⟩, ⟨"/repo/d2/x.mmd", false⟩]
    clock := fun _ => 1000 }

/-- Environment in which the glob matches nothing. -/
def envE : Env := { envA with fs := [] }

/-! ### Structural lemmas about the loop -/

theorem runFiles_append (cfg : Config) (env : Env) (a b : List String) (st : LoopState) :
    runFiles cfg env (a ++ b) st = runFiles cfg env b (runFiles cfg env a st) := by
  induction a generalizing st with
  | nil => rfl
  | cons f rest ih => simp [runFiles, ih]

theorem processFile_counts (cfg : Config) (env : Env) (st : LoopState) (f : String) :
    (processFile cfg env st f).ok + (processFile cfg env st f).fail
      = st.ok + st.fail + 1 := by
  cases h : (renderOne cfg env st.tick f).result <;> simp [processFile, h] <;> omega

theorem runFiles_counts (cfg : Config) (env : Env) (files : List String) (st : LoopState) :
    (runFiles cfg env files st).ok + (runFiles cfg env files st).fail
      = st.ok + st.fail + files.length := by
  induction files generalizing st with
  | nil => rfl
  | cons f rest ih =>
    simp only [runFiles, ih, processFile_counts, List.length_cons]
    omega

theorem processFile_effects (cfg : Config) (env : Env) (st : LoopState) (f : String) :
    (processFile cfg env st f).effects
      = st.effects ++ (renderOne cfg env st.tick f).effects := by
  cases h : (renderOne cfg env st.tick f).result <;> simp [processFile, h]

theorem processFile_tick (cfg : Config) (env : Env) (st : LoopState) (f : String) :
    (processFile cfg env st f).tick = (renderOne cfg env st.tick f).tick := by
  cases h : (renderOne cfg env st.tick f).result <;> simp [processFile, h]

theorem writtenPaths_append (a b : List Effect) :
    writtenPaths (a ++ b) = writtenPaths a ++ writtenPaths b := by
  simp [writtenPaths, List.filterMap_append]

theorem renderOne_writtenPaths (cfg : Config) (env : Env) (t : Nat) (f : String) :
    writtenPaths (renderOne cfg env t f).effects
      = expectedWrites (renderOne cfg env t f).result := by
  cases hr : env.readFile f with
  | error e => simp [renderOne, hr, writtenPaths, expectedWrites]
  | ok code =>
    cases hm : env.mermaidRender (mkId (basename f) (env.clock t)) code with
    | error e => simp [renderOne, hr, hm, writtenPaths, expectedWrites]
    | ok svg =>
      cases hp : env.resvgPng svg with
      | error e => simp [renderOne, hr, hm, hp, writtenPaths, expectedWrites]
      | ok png =>
        cases hd : env.mkdirRec (resolvePath env.cwd cfg.outputDir) with
        | error e => simp [renderOne, hr, hm, hp, hd, writtenPaths, expectedWrites]
        | ok u =>
          cases hw : env.writeFile
              (joinPath (resolvePath env.cwd cfg.outputDir)
                (replaceSrcExt (basename f))) png with
          | error e => simp [renderOne, hr, hm, hp, hd, hw, writtenPaths, expectedWrites]
          | ok u2 => simp [renderOne, hr, hm, hp, hd, hw, writtenPaths, expectedWrites]

theorem runFiles_writtenPaths (cfg : Config) (env : Env) (files : List String)
    (st : LoopState) :
    writtenPaths (runFiles cfg env files st).effects
      = writtenPaths st.effects ++ batchWrittenPaths cfg env files st.tick := by
  induction files generalizing st with
  | nil => simp [runFiles, batchWrittenPaths]
  | cons f rest ih =>
    simp only [runFiles, batchWrittenPaths, ih, processFile_effects, processFile_tick,
      writtenPaths_append, List.append_assoc]

theorem renderOne_clock_congr (cfg : Config) (env : Env) (t₁ t₂ : Nat) (f : String)
    (h : env.clock t₁ = env.clock t₂) :
    (renderOne cfg env t₁ f).result = (renderOne cfg env t₂ f).result
      ∧ (renderOne cfg env t₁ f).effects = (renderOne cfg env t₂ f).effects := by
  cases hr : env.readFile f with
  | error e => simp [renderOne, hr]
  | ok code =>
    cases hm : env.mermaidRender (mkId (basename f) (env.clock t₂)) code with
    | error e => simp [renderOne, hr, h, hm]
    | ok svg =>
      cases hp : env.resvgPng svg with
      | error e => simp [renderOne, hr, h, hm, hp]
      | ok png =>
        cases hd : env.mkdirRec (resolvePath env.cwd cfg.outputDir) with
        | error e => simp [renderOne, hr, h, hm, hp, hd]
        | ok u =>
          cases hw : env.writeFile
              (joinPath (resolvePath env.cwd cfg.outputDir)
                (replaceSrcExt (basename f))) png with
          | error e => simp [renderOne, hr, h, hm, hp, hd, hw]
          | ok u2 => simp [renderOne, hr, h, hm, hp, hd, hw]

theorem exitCode_zero (cfg : Config) (env : Env) (h : env.globError = none) :
    exitCode cfg env = 0 := by
  unfold exitCode mainRun
  rw [h]
  by_cases he : (locatedFiles cfg env).isEmpty <;> simp [he]

theorem renderOne_mkdir_mem (cfg : Config) (env : Env) (t : Nat) (f d : String)
    (b : Bool) (h : Effect.mkdir d b ∈ (renderOne cfg env t f).effects) :
    b = true ∧ d = resolvePath env.cwd cfg.outputDir
      ∧ reachesMkdir cfg env t f = true := by
  cases hr : env.readFile f with
  | error e => simp [renderOne, hr] at h
  | ok code =>
    cases hm : env.mermaidRender (mkId (basename f) (env.clock t)) code with
    | error e => simp [renderOne, hr, hm] at h
    | ok svg =>
      cases hp : env.resvgPng svg with
      | error e => simp [renderOne, hr, hm, hp] at h
      | ok png =>
        refine ?_
        have hreach : reachesMkdir cfg env t f = true := by
          simp [reachesMkdir, hr, hm, hp]
        cases hd : env.mkdirRec (resolvePath env.cwd cfg.outputDir) with
        | error e =>
          simp [renderOne, hr, hm, hp, hd] at h
          exact ⟨h.2, h.1, hreach⟩
        | ok u =>
          cases hw : env.writeFile
              (joinPath (resolvePath env.cwd cfg.outputDir)
                (replaceSrcExt (basename f))) png with
          | error e =>
            simp [renderOne, hr, hm, hp, hd, hw] at h
            exact ⟨h.2, h.1, hreach⟩
          | ok u2 =>
            simp [renderOne, hr, hm, hp, hd, hw] at h
            exact ⟨h.2, h.1, hreach⟩

theorem renderOne_write_after_mkdir (cfg : Config) (env : Env) (t : Nat)
    (f p : String) (bs : List Nat) (i : Nat)
    (h : (renderOne cfg env t f).effects[i]? = some (.write p bs)) :
    1 ≤ i ∧ (renderOne cfg env t f).effects[i-1]?
      = some (.mkdir (resolvePath env.cwd cfg.outputDir) true) := by
  cases hr : env.readFile f with
  | error e =>
    rw [renderOne, hr] at h
    rcases i with _ | i <;> simp at h
  | ok code =>
    cases hm : env.mermaidRender (mkId (basename f) (env.clock t)) code with
    | error e =>
      rw [renderOne, hr] at h
      simp only [hm] at h
      rcases i with _ | _ | i <;> simp at h
    | ok svg =>
      cases hp : env.resvgPng svg with
      | error e =>
        rw [renderOne, hr] at h
        simp only [hm, hp] at h
        rcases i with _ | _ | _ | i <;> simp at h
      | ok png =>
        cases hd : env.mkdirRec (resolvePath env.cwd cfg.outputDir) with
        | error e =>
          rw [renderOne, hr] at h
          simp only [hm, hp, hd] at h
          rcases i with _ | _ | _ | _ | i <;> simp at h
        | ok u =>
          cases hw : env.writeFile
              (joinPath (resolvePath env.cwd cfg.outputDir)
                (replaceSrcExt (basename f))) png with
          | error e =>
            rw [renderOne, hr] at h
            simp only [hm, hp, hd, hw] at h
            rcases i with _ | _ | _ | _ | i <;> simp at h
          | ok u2 =>
            rw [renderOne, hr] at h
            simp only [hm, hp, hd, hw] at h
            rcases i with _ | _ | _ | _ | _ | i <;> simp_all [renderOne, hr, hm, hp, hd, hw]

theorem runFiles_mkdir_mem (cfg : Config) (env : Env) (files : List String)
    (st : LoopState) (d : String) (b : Bool)
    (h : Effect.mkdir d b ∈ (runFiles cfg env files st).effects) :
    Effect.mkdir d b ∈ st.effects ∨ anyReachesMkdir cfg env files st.tick = true := by
  induction files generalizing st with
  | nil => exact .inl h
  | cons f rest ih =>
    rcases ih (processFile cfg env st f) h with h2 | h2
    · rw [processFile_effects, List.mem_append] at h2
      rcases h2 with h3 | h3
      · exact .inl h3
      · right
        have := (renderOne_mkdir_mem cfg env st.tick f d b h3).2.2
        simp [anyReachesMkdir, this]
    · right
      rw [processFile_tick] at h2
      simp [anyReachesMkdir, h2]

/-! ### Decimal rendering facts, for identifier uniqueness -/

/-- Numeric value of a decimal digit character. -/
def digitVal (c : Char) : Nat := c.toNat - '0'.toNat

/-- Value of a most-significant-first decimal digit list. -/
def decVal (l : List Char) : Nat := l.foldl (fun a c => 10 * a + digitVal c) 0

theorem toDigitsCore_acc (fuel n : Nat) (ds : List Char) :
    Nat.toDigitsCore 10 fuel n ds = Nat.toDigitsCore 10 fuel n [] ++ ds := by
  induction fuel generalizing n ds with
  | zero => simp [Nat.toDigitsCore]
  | succ f ih =>
    simp only [Nat.toDigitsCore]
    by_cases h : n / 10 = 0
    · simp [h]
    · simp only [h, if_false]
      rw [ih (n / 10) (Nat.digitChar (n % 10) :: ds), ih (n / 10) [Nat.digitChar (n % 10)]]
      simp

theorem decVal_concat (x : List Char) (d : Char) :
    decVal (x ++ [d]) = 10 * decVal x + digitVal d := by
  simp [decVal, List.foldl_append]

theorem toDigitsCore_spec (fuel n : Nat) (h : n < fuel) :
    decVal (Nat.toDigitsCore 10 fuel n []) = n
      ∧ ∀ c ∈ Nat.toDigitsCore 10 fuel n [], c ≠ '_' := by
  induction fuel generalizing n with
  | zero => omega
  | succ f ih =>
    simp only [Nat.toDigitsCore]
    by_cases h10 : n / 10 = 0
    · have hn : n < 10 := by omega
      have hmod : n % 10 = n := Nat.mod_eq_of_lt hn
      simp only [h10, if_true, hmod]
      refine ⟨?_, ?_⟩
      · have hk : ∀ k, k < 10 → digitVal (Nat.digitChar k) = k := by decide
        simp [decVal, hk n hn]
      · intro c hc
        simp only [List.mem_singleton] at hc
        subst hc
        have hk : ∀ k, k < 10 → Nat.digitChar k ≠ '_' := by decide
        exact hk n hn
    · simp only [h10, if_false]
      rw [toDigitsCore_acc]
      have hlt : n / 10 < f := by omega
      obtain ⟨hval, hclean⟩ := ih (n / 10) hlt
      refine ⟨?_, ?_⟩
      · rw [decVal_concat, hval]
        have hm : n % 10 < 10 := by omega
        have hk : ∀ k, k < 10 → digitVal (Nat.digitChar k) = k := by decide
        rw [hk _ hm]
        omega
      · intro c hc
        rw [List.mem_append] at hc
        rcases hc with hc | hc
        · exact hclean c hc
        · simp only [List.mem_singleton] at hc
          subst hc
          have hm : n % 10 < 10 := by omega
          have hk : ∀ k, k < 10 → Nat.digitChar k ≠ '_' := by decide
          exact hk _ hm

theorem repr_data (n : Nat) : (Nat.repr n).data = Nat.toDigitsCore 10 (n + 1) n [] := rfl

theorem decVal_repr (n : Nat) : decVal (Nat.repr n).data = n := by
  rw [repr_data]
  exact (toDigitsCore_spec (n + 1) n (Nat.lt_succ_self n)).1

theorem repr_no_underscore (n : Nat) : ∀ c ∈ (Nat.repr n).data, c ≠ '_' := by
  rw [repr_data]
  exact (toDigitsCore_spec (n + 1) n (Nat.lt_succ_self n)).2

/-- The characters after the last underscore of a character list. -/
def afterLastUnderscore (l : List Char) : List Char :=
  (l.reverse.takeWhile fun c => c != '_').reverse

theorem takeWhile_append_all (p : Char → Bool) (a b : List Char)
    (h : ∀ c ∈ a, p c = true) :
    (a ++ b).takeWhile p = a ++ b.takeWhile p := by
  induction a with
  | nil => rfl
  | cons c rest ih =>
    have hc : p c = true := h c (by simp)
    simp only [List.cons_append, List.takeWhile_cons, hc, if_true]
    rw [ih fun x hx => h x (by simp [hx])]

theorem afterLast_spec (x d : List Char) (h : ∀ c ∈ d, c ≠ '_') :
    afterLastUnderscore (x ++ '_' :: d) = d := by
  unfold afterLastUnderscore
  rw [List.reverse_append]
  rw [show ('_' :: d).reverse = d.reverse ++ ['_'] by simp]
  rw [List.append_assoc]
  rw [takeWhile_append_all _ _ _ (fun c hc => by
    rw [List.mem_reverse] at hc
    simpa using h c hc)]
  simp [List.takeWhile_cons]

theorem string_data_append (a b : String) : (a ++ b).data = a.data ++ b.data := rfl

theorem mkId_data (s : String) (t : Nat) :
    (mkId s t).data = ("mmd_" ++ sanitize s).data ++ '_' :: (Nat.repr t).data := by
  show ((("mmd_" ++ sanitize s) ++ "_") ++ Nat.repr t).data = _
  rw [string_data_append, string_data_append]
  simp

/-- The diagram identifier determines the `Date.now()` value that produced
it: identifiers built at different clock readings are different strings. -/
theorem mkId_time_inj (s₁ s₂ : String) (t₁ t₂ : Nat) (h : mkId s₁ t₁ = mkId s₂ t₂) :
    t₁ = t₂ := by
  have hd := congrArg String.data h
  rw [mkId_data, mkId_data] at hd
  have h1 := afterLast_spec ("mmd_" ++ sanitize s₁).data (Nat.repr t₁).data
    (repr_no_underscore t₁)
  have h2 := afterLast_spec ("mmd_" ++ sanitize s₂).data (Nat.repr t₂).data
    (repr_no_underscore t₂)
  have hv : (Nat.repr t₁).data = (Nat.repr t₂).data := by rw [← h1, ← h2, hd]
  have hval := congrArg decVal hv
  rwa [decVal_repr, decVal_repr] at hval

theorem getLastD_concat (l : List String) (a d : String) :
    (l ++ [a]).getLastD d = a := by
  induction l generalizing d with
  | nil => rfl
  | cons x xs ih =>
    rw [List.cons_append, List.getLastD_cons]
    exact ih x

theorem mainRun_ok_nonempty (cfg : Config) (env : Env) (st : LoopState)
    (h1 : mainRun cfg env = .ok st) (h2 : locatedFiles cfg env ≠ []) :
    st.ok + st.fail = (locatedFiles cfg env).length
      ∧ st.console.getLastD "" = summaryLine st.ok st.fail := by
  unfold mainRun at h1
  cases hG : env.globError with
  | some e => rw [hG] at h1; cases h1
  | none =>
    rw [hG] at h1
    have hne : (locatedFiles cfg env).isEmpty = false := by
      cases hl : locatedFiles cfg env with
      | nil => exact absurd hl h2
      | cons a l => rfl
    simp only [hne, Bool.false_eq_true, if_false] at h1
    injection h1 with h1
    subst h1
    constructor
    · have h := runFiles_counts cfg env (locatedFiles cfg env)
        { ok := 0, fail := 0,
          console := ["Rendering " ++ Nat.repr (locatedFiles cfg env).length ++
            " Mermaid file(s) to PNG (no browser)..."],
          effects := [], tick := 0 }
      simpa using h
    · simp [getLastD_concat]

theorem renderOne_render_mem (cfg : Config) (env : Env) (t : Nat) (f code : String)
    (h : env.readFile f = .ok code) :
    Effect.render (mkId (basename f) (env.clock t)) code
      ∈ (renderOne cfg env t f).effects := by
  cases hm : env.mermaidRender (mkId (basename f) (env.clock t)) code with
  | error e => simp [renderOne, h, hm]
  | ok svg =>
    cases hp : env.resvgPng svg with
    | error e => simp [renderOne, h, hm, hp]
    | ok png =>
      cases hd : env.mkdirRec (resolvePath env.cwd cfg.outputDir) with
      | error e => simp [renderOne, h, hm, hp, hd]
      | ok u =>
        cases hw : env.writeFile
            (joinPath (resolvePath env.cwd cfg.outputDir)
              (replaceSrcExt (basename f))) png with
        | error e => simp [renderOne, h, hm, hp, hd, hw]
        | ok u2 => simp [renderOne, h, hm, hp, hd, hw]

theorem renderOne_ok_path (cfg : Config) (env : Env) (t : Nat) (f p : String)
    (h : (renderOne cfg env t f).result = .ok p) :
    p = joinPath (resolvePath env.cwd cfg.outputDir) (replaceSrcExt (basename f)) := by
  cases hr : env.readFile f with
  | error e => simp [renderOne, hr] at h
  | ok code =>
    cases hm : env.mermaidRender (mkId (basename f) (env.clock t)) code with
    | error e => simp [renderOne, hr, hm] at h
    | ok svg =>
      cases hp : env.resvgPng svg with
      | error e => simp [renderOne, hr, hm, hp] at h
      | ok png =>
        cases hd : env.mkdirRec (resolvePath env.cwd cfg.outputDir) with
        | error e => simp [renderOne, hr, hm, hp, hd] at h
        | ok u =>
          cases hw : env.writeFile
              (joinPath (resolvePath env.cwd cfg.outputDir)
                (replaceSrcExt (basename f))) png with
          | error e => simp [renderOne, hr, hm, hp, hd, hw] at h
          | ok u2 =>
            simp [renderOne, hr, hm, hp, hd, hw] at h
            exact h.symm

/-! ### The claims -/

/-- C1: for every matched input file, any error raised during its
read-render-rasterize-write sequence is caught by the loop's try/catch,
logged with the file path and the error detail, increments the failure count
by one, and processing continues with the next file; no per-file failure
halts the batch, and the process exits with status 0 (given the glob itself
succeeded) even if every file failed. -/
theorem c1_per_file_failure_caught_run_exits_zero
    (cfg : Config) (env : Env) (st : LoopState) (f e : String) (rest : List String)
    (hG : env.globError = none)
    (h : (renderOne cfg env st.tick f).result = .error e) :
    exitCode cfg env = 0
      ∧ (processFile cfg env st f).fail = st.fail + 1
      ∧ (processFile cfg env st f).ok = st.ok
      ∧ (processFile cfg env st f).console = st.console ++ [failLine f e]
      ∧ runFiles cfg env (f :: rest) st
          = runFiles cfg env rest (processFile cfg env st f) := by
  refine ⟨exitCode_zero cfg env hG, ?_, ?_, ?_, rfl⟩ <;> simp [processFile, h]

/-- Witness for C1: in the concrete environment `envA` the file `bad.mmd`
fails to render; the failure is counted, logged with path and detail, the
loop moves on, and the whole run exits 0. -/
theorem c1_per_file_failure_caught_run_exits_zero_witness :
    exitCode cfgA envA = 0
      ∧ (processFile cfgA envA { ok := 0, fail := 0, console := [], effects := [], tick := 0 }
          "/repo/diagrams/bad.mmd").fail = 0 + 1
      ∧ (processFile cfgA envA { ok := 0, fail := 0, console := [], effects := [], tick := 0 }
          "/repo/diagrams/bad.mmd").ok = 0
      ∧ (processFile cfgA envA { ok := 0, fail := 0, console := [], effects := [], tick := 0 }
          "/repo/diagrams/bad.mmd").console
          = [] ++ [failLine "/repo/diagrams/bad.mmd" "Parse error on line 1"]
      ∧ runFiles cfgA envA ["/repo/diagrams/bad.mmd", "/repo/diagrams/a.mmd"]
            { ok := 0, fail := 0, console := [], effects := [], tick := 0 }
          = runFiles cfgA envA ["/repo/diagrams/a.mmd"]
            (processFile cfgA envA { ok := 0, fail := 0, console := [], effects := [], tick := 0 }
              "/repo/diagrams/bad.mmd") :=
  c1_per_file_failure_caught_run_exits_zero cfgA envA
    { ok := 0, fail := 0, console := [], effects := [], tick := 0 }
    "/repo/diagrams/bad.mmd" "Parse error on line 1" ["/repo/diagrams/a.mmd"]
    rfl (by decide)

/-- C5: if the glob pattern matches zero files, the run produces exactly one
informational console line, performs no effects at all (in particular no
writes to the output directory), and the process exits 0. -/
theorem c5_zero_matches_success
    (cfg : Config) (env : Env)
    (hG : env.globError = none) (h : locatedFiles cfg env = []) :
    mainRun cfg env
        = .ok { ok := 0, fail := 0, console := [noMatchLine cfg.inputPattern],
                effects := [], tick := 0 }
      ∧ exitCode cfg env = 0 := by
  constructor
  · unfold mainRun
    rw [hG]
    simp [h]
  · exact exitCode_zero cfg env hG

/-- Witness for C5: the concrete empty-filesystem environment. -/
theorem c5_zero_matches_success_witness :
    mainRun cfgA envE
        = .ok { ok := 0, fail := 0, console := [noMatchLine cfgA.inputPattern],
                effects := [], tick := 0 }
      ∧ exitCode cfgA envE = 0 :=
  c5_zero_matches_success cfgA envE rfl (by decide)

/-- C6: a per-file step writes nothing when it fails and exactly its returned
output path when it succeeds (`expectedWrites`), and the writes of a batch
are exactly the concatenation of the per-file writes, file by file — so a
failing file leaves no artifact while the other files' outputs are still
produced. -/
theorem c6_no_write_on_failure
    (cfg : Config) (env : Env) (t : Nat) (f : String) (files : List String)
    (st : LoopState) :
    writtenPaths (renderOne cfg env t f).effects
        = expectedWrites (renderOne cfg env t f).result
      ∧ writtenPaths (runFiles cfg env files st).effects
          = writtenPaths st.effects ++ batchWrittenPaths cfg env files st.tick :=
  ⟨renderOne_writtenPaths cfg env t f, runFiles_writtenPaths cfg env files st⟩

/-- C7: when the loop runs (at least one file matched), the success and
failure counters partition the matched files — their sum equals the number
of matched files — and the final console line is the summary reporting both
counts. -/
theorem c7_counts_partition_and_summary
    (cfg : Config) (env : Env) (st : LoopState)
    (h1 : mainRun cfg env = .ok st) (h2 : locatedFiles cfg env ≠ []) :
    st.ok + st.fail = (locatedFiles cfg env).length
      ∧ st.console.getLastD "" = summaryLine st.ok st.fail :=
  mainRun_ok_nonempty cfg env st h1 h2

/-- Witness for C7: the concrete two-file run (one success, one failure)
has counters summing to 2 and ends with `Done. Success: 1, Failed: 1`. -/
theorem c7_counts_partition_and_summary_witness :
    (stOf cfgA envA).ok + (stOf cfgA envA).fail = (locatedFiles cfgA envA).length
      ∧ (stOf cfgA envA).console.getLastD ""
          = summaryLine (stOf cfgA envA).ok (stOf cfgA envA).fail :=
  c7_counts_partition_and_summary cfgA envA (stOf cfgA envA) rfl (by decide)

/-- C2 counterexample: with a single matched file and `fs.mkdir` failing,
the run still resolves — exit code 0, the mkdir error is recorded as a
per-file failure (`Failed: 1`) after the mkdir was attempted — refuting the
claim that an output-directory creation failure terminates the process with
a non-zero status. -/
theorem c2_counterexample_mkdir_failure_not_fatal :
    exitCode cfgA envB = 0
      ∧ (stOf cfgA envB).fail = 1
      ∧ (stOf cfgA envB).ok = 0
      ∧ Effect.mkdir "/repo/out" true ∈ (stOf cfgA envB).effects
      ∧ (stOf cfgA envB).console.getLastD "" = summaryLine 0 1 := by
  refine ⟨rfl, rfl, rfl, ?_, rfl⟩
  decide

/-- C2 as amended: a failure of the recursive `fs.mkdir` for the output
directory is caught by the per-file handler like any other step failure —
the file's step rejects with that error, the failure count increments, the
error is logged with the file path, and the process still exits 0; it is
not run-fatal. -/
theorem c2_amended_mkdir_failure_is_per_file
    (cfg : Config) (env : Env) (st : LoopState) (f code svg e : String)
    (png : List Nat)
    (hG : env.globError = none)
    (h1 : env.readFile f = .ok code)
    (h2 : env.mermaidRender (mkId (basename f) (env.clock st.tick)) code = .ok svg)
    (h3 : env.resvgPng svg = .ok png)
    (h4 : env.mkdirRec (resolvePath env.cwd cfg.outputDir) = .error e) :
    (renderOne cfg env st.tick f).result = .error e
      ∧ (processFile cfg env st f).fail = st.fail + 1
      ∧ (processFile cfg env st f).console = st.console ++ [failLine f e]
      ∧ exitCode cfg env = 0 := by
  have hres : (renderOne cfg env st.tick f).result = .error e := by
    simp [renderOne, h1, h2, h3, h4]
  exact ⟨hres, by simp [processFile, hres], by simp [processFile, hres],
    exitCode_zero cfg env hG⟩

/-- Witness for the amended C2: the concrete environment `envB`. -/
theorem c2_amended_mkdir_failure_is_per_file_witness :
    (renderOne cfgA envB 0 "/repo/diagrams/a.mmd").result
        = .error "EACCES: permission denied, mkdir /repo/out"
      ∧ (processFile cfgA envB { ok := 0, fail := 0, console := [], effects := [], tick := 0 }
          "/repo/diagrams/a.mmd").fail = 0 + 1
      ∧ (processFile cfgA envB { ok := 0, fail := 0, console := [], effects := [], tick := 0 }
          "/repo/diagrams/a.mmd").console
          = [] ++ [failLine "/repo/diagrams/a.mmd" "EACCES: permission denied, mkdir /repo/out"]
      ∧ exitCode cfgA envB = 0 :=
  c2_amended_mkdir_failure_is_per_file cfgA envB
    { ok := 0, fail := 0, console := [], effects := [], tick := 0 }
    "/repo/diagrams/a.mmd" "src:/repo/diagrams/a.mmd" "<svg>ok</svg>"
    "EACCES: permission denied, mkdir /repo/out" [137, 80, 78, 71]
    rfl (by decide) (by decide) (by decide) (by decide)

/-- C3 counterexample: a processed `.svg` input (patterns are configurable)
is written to `<outDir>/a.svg` — the source extension is NOT replaced by
`.png`, refuting the claim's universal naming rule `basename with its
source extension replaced by ".png"` (which would give `<outDir>/a.png`). -/
theorem c3_counterexample_extension_not_replaced :
    (renderOne cfgC envC 0 "/repo/diagrams/a.svg").result = .ok "/repo/out/a.svg"
      ∧ writtenPaths (stOf cfgC envC).effects = ["/repo/out/a.svg"]
      ∧ joinPath (resolvePath envC.cwd cfgC.outputDir)
            (specOutName (basename "/repo/diagrams/a.svg"))
          = "/repo/out/a.png"
      ∧ ("/repo/out/a.svg" : String) ≠ "/repo/out/a.png" := by
  refine ⟨rfl, ?_, rfl, ?_⟩ <;> decide

/-- C3 as amended: for every successfully processed input file the output
path is the resolved output directory joined with the input's basename in
which the extension is replaced by `.png` only when it is `.mmd`,
`.mermaid` or `.txt` (case-insensitively) and kept unchanged otherwise
(`replaceSrcExt`); the name depends on the basename alone, so inputs from
different subdirectories are flattened and equal basenames map to the same
output path (re-runs overwrite). -/
theorem c3_amended_output_path_from_basename
    (cfg : Config) (env : Env) (t t' : Nat) (f g p q : String)
    (h1 : (renderOne cfg env t f).result = .ok p)
    (h2 : (renderOne cfg env t' g).result = .ok q)
    (h3 : basename f = basename g) :
    p = joinPath (resolvePath env.cwd cfg.outputDir) (replaceSrcExt (basename f))
      ∧ q = p := by
  have hp := renderOne_ok_path cfg env t f p h1
  have hq := renderOne_ok_path cfg env t' g q h2
  exact ⟨hp, by rw [hp, hq, h3]⟩

/-- Witness for the amended C3: `/repo/diagrams/a.mmd` and a same-basename
file in a subdirectory both map to `/repo/out/a.png`. -/
theorem c3_amended_output_path_from_basename_witness :
    ("/repo/out/a.png" : String)
        = joinPath (resolvePath envA.cwd cfgA.outputDir)
            (replaceSrcExt (basename "/repo/diagrams/a.mmd"))
      ∧ ("/repo/out/a.png" : String) = "/repo/out/a.png" :=
  c3_amended_output_path_from_basename cfgA envA 0 5
    "/repo/diagrams/a.mmd" "/repo/diagrams/sub/a.mmd" "/repo/out/a.png" "/repo/out/a.png"
    (by decide) (by decide) (by decide)

/-- C4 counterexample: two render invocations in one run — files `d1/x.mmd`
and `d2/x.mmd` with `Date.now()` frozen at 1000 — receive the identical
internal identifier `mmd_x_mmd_1000`, refuting the claim that every two
render invocations of one process lifetime get distinct identifiers. -/
theorem c4_counterexample_duplicate_identifiers :
    renderIds (stOf cfgA envD).effects = ["mmd_x_mmd_1000", "mmd_x_mmd_1000"]
      ∧ ¬ (renderIds (stOf cfgA envD).effects).Nodup := by
  refine ⟨?_, ?_⟩ <;> decide

/-- C4 as amended: each render invocation passes the renderer the identifier
`mmd_<sanitized basename>_<Date.now()>`; identifiers of two invocations are
distinct whenever their `Date.now()` readings differ, but two renders of
same-basename files within one clock millisecond collide. -/
theorem c4_amended_ids_distinct_across_timestamps
    (cfg : Config) (env : Env) (t : Nat) (f code s₁ s₂ : String) (n₁ n₂ : Nat)
    (h : env.readFile f = .ok code) (hne : n₁ ≠ n₂) :
    Effect.render (mkId (basename f) (env.clock t)) code
        ∈ (renderOne cfg env t f).effects
      ∧ mkId s₁ n₁ ≠ mkId s₂ n₂ :=
  ⟨renderOne_render_mem cfg env t f code h,
    fun hEq => hne (mkId_time_inj s₁ s₂ n₁ n₂ hEq)⟩

/-- Witness for the amended C4: concrete render-effect membership and
distinctness of ids for timestamps 1000 and 1001. -/
theorem c4_amended_ids_distinct_across_timestamps_witness :
    Effect.render (mkId (basename "/repo/d1/x.mmd") (envD.clock 0))
        "src:/repo/d1/x.mmd"
        ∈ (renderOne cfgA envD 0 "/repo/d1/x.mmd").effects
      ∧ mkId "x.mmd" 1000 ≠ mkId "x.mmd" 1001 :=
  c4_amended_ids_distinct_across_timestamps cfgA envD 0
    "/repo/d1/x.mmd" "src:/repo/d1/x.mmd" "x.mmd" "x.mmd" 1000 1001
    (by decide) (by decide)

/-- C8: files are processed strictly sequentially in locator order (the run
on `pre ++ f :: post` is the run on `post` started from the state after
`pre` then `f`), and the outcome of a file — result and full effect trace,
including the produced bytes — does not depend on what was processed before
it: it equals the outcome of processing the file first, provided only that
the ambient `Date.now()` reading is the same; no loop state other than that
clock index reaches the per-file computation. -/
theorem c8_outcome_independent_of_batch_position
    (cfg : Config) (env : Env) (st0 : LoopState) (pre post : List String) (f : String)
    (h : env.clock (runFiles cfg env pre st0).tick = env.clock st0.tick) :
    runFiles cfg env (pre ++ f :: post) st0
        = runFiles cfg env post (processFile cfg env (runFiles cfg env pre st0) f)
      ∧ (renderOne cfg env (runFiles cfg env pre st0).tick f).result
          = (renderOne cfg env st0.tick f).result
      ∧ (renderOne cfg env (runFiles cfg env pre st0).tick f).effects
          = (renderOne cfg env st0.tick f).effects := by
  obtain ⟨hres, heff⟩ :=
    renderOne_clock_congr cfg env (runFiles cfg env pre st0).tick st0.tick f h
  exact ⟨runFiles_append cfg env pre (f :: post) st0, hres, heff⟩

/-- Witness for C8: with the frozen clock of `envD`, processing `d2/x.mmd`
after `d1/x.mmd` gives exactly the result and trace of processing it from
the initial state. -/
theorem c8_outcome_independent_of_batch_position_witness :
    runFiles cfgA envD (["/repo/d1/x.mmd"] ++ ["/repo/d2/x.mmd"])
          { ok := 0, fail := 0, console := [], effects := [], tick := 0 }
        = runFiles cfgA envD []
            (processFile cfgA envD
              (runFiles cfgA envD ["/repo/d1/x.mmd"]
                { ok := 0, fail := 0, console := [], effects := [], tick := 0 })
              "/repo/d2/x.mmd")
      ∧ (renderOne cfgA envD
            (runFiles cfgA envD ["/repo/d1/x.mmd"]
              { ok := 0, fail := 0, console := [], effects := [], tick := 0 }).tick
            "/repo/d2/x.mmd").result
          = (renderOne cfgA envD 0 "/repo/d2/x.mmd").result
      ∧ (renderOne cfgA envD
            (runFiles cfgA envD ["/repo/d1/x.mmd"]
              { ok := 0, fail := 0, console := [], effects := [], tick := 0 }).tick
            "/repo/d2/x.mmd").effects
          = (renderOne cfgA envD 0 "/repo/d2/x.mmd").effects :=
  c8_outcome_independent_of_batch_position cfgA envD
    { ok := 0, fail := 0, console := [], effects := [], tick := 0 }
    ["/repo/d1/x.mmd"] [] "/repo/d2/x.mmd" rfl

/-- C9: every path returned by the File Locator (the `fast-glob` call with
`dot:false, absolute:true, onlyFiles:true, unique:true,
caseSensitiveMatch:false`) is an absolute path of an existing
non-directory, non-hidden filesystem entry, matched case-insensitively
(both pattern and path case-folded), and the returned list is
duplicate-free. -/
theorem c9_locator_contract
    (cfg : Config) (env : Env) (p : String)
    (habs : ∀ e ∈ env.fs, isAbsPath e.path = true)
    (hp : p ∈ locatedFiles cfg env) :
    (locatedFiles cfg env).Nodup
      ∧ isAbsPath p = true
      ∧ (⟨p, false⟩ : FsEntry) ∈ env.fs
      ∧ hiddenPath p = false
      ∧ env.globMatch (lowerStr cfg.inputPattern) (lowerStr p) = true := by
  have hdef : locatedFiles cfg env
      = (List.map FsEntry.path (env.fs.filter fun e =>
          env.globMatch (lowerStr cfg.inputPattern) (lowerStr e.path)
            && !e.isDir && !hiddenPath e.path)).dedup := rfl
  have hnodup : (locatedFiles cfg env).Nodup := by
    rw [hdef]
    exact List.nodup_dedup _
  rw [hdef, List.mem_dedup, List.mem_map] at hp
  obtain ⟨e, he, rfl⟩ := hp
  rw [List.mem_filter] at he
  obtain ⟨hmem, hcond⟩ := he
  simp only [Bool.and_eq_true, Bool.not_eq_true'] at hcond
  obtain ⟨⟨hmatch, hdir⟩, hhid⟩ := hcond
  refine ⟨hnodup, habs e hmem, ?_, hhid, hmatch⟩
  have : e = ⟨e.path, false⟩ := by
    cases e with
    | mk pa di => simpa using hdir
  rw [← this]
  exact hmem

/-- Witness for C9: `a.mmd` is returned by the locator of the concrete
environment (which also contains a hidden file and a directory that are
excluded). -/
theorem c9_locator_contract_witness :
    (locatedFiles cfgA envA).Nodup
      ∧ isAbsPath "/repo/diagrams/a.mmd" = true
      ∧ (⟨"/repo/diagrams/a.mmd", false⟩ : FsEntry) ∈ envA.fs
      ∧ hiddenPath "/repo/diagrams/a.mmd" = false
      ∧ envA.globMatch (lowerStr cfgA.inputPattern) (lowerStr "/repo/diagrams/a.mmd")
          = true :=
  c9_locator_contract cfgA envA "/repo/diagrams/a.mmd" (by decide) (by decide)

/-- C10: the output directory is created lazily and per file: the mkdir
effect always carries `recursive := true` (so a pre-existing directory is
not an error), targets the resolved output directory, occurs in a file's
trace only when that file's read, render and rasterize all succeeded, a
write effect is always immediately preceded by it, and a batch whose files
all fail before rasterization performs no mkdir at all. -/
theorem c10_mkdir_lazy_recursive_before_write
    (cfg : Config) (env : Env) (t t' : Nat) (f f' p d d' : String)
    (bs : List Nat) (i : Nat) (b b' : Bool) (files : List String) (st : LoopState)
    (h1 : (renderOne cfg env t f).effects[i]? = some (.write p bs))
    (h2 : Effect.mkdir d' b' ∈ (renderOne cfg env t' f').effects)
    (h3 : Effect.mkdir d b ∈ (runFiles cfg env files st).effects) :
    1 ≤ i
      ∧ (renderOne cfg env t f).effects[i - 1]?
          = some (.mkdir (resolvePath env.cwd cfg.outputDir) true)
      ∧ b' = true
      ∧ d' = resolvePath env.cwd cfg.outputDir
      ∧ reachesMkdir cfg env t' f' = true
      ∧ (Effect.mkdir d b ∈ st.effects ∨ anyReachesMkdir cfg env files st.tick = true) := by
  obtain ⟨hi, hprev⟩ := renderOne_write_after_mkdir cfg env t f p bs i h1
  obtain ⟨hb, hd, hreach⟩ := renderOne_mkdir_mem cfg env t' f' d' b' h2
  exact ⟨hi, hprev, hb, hd, hreach, runFiles_mkdir_mem cfg env files st d b h3⟩

/-- Witness for C10: the successful file `a.mmd` of `envA` — its write at
index 4 is immediately preceded by the recursive mkdir at index 3, and the
run's mkdir stems from a file that passed rasterization. -/
theorem c10_mkdir_lazy_recursive_before_write_witness :
    1 ≤ 4
      ∧ (renderOne cfgA envA 0 "/repo/diagrams/a.mmd").effects[4 - 1]?
          = some (.mkdir (resolvePath envA.cwd cfgA.outputDir) true)
      ∧ true = true
      ∧ "/repo/out" = resolvePath envA.cwd cfgA.outputDir
      ∧ reachesMkdir cfgA envA 0 "/repo/diagrams/a.mmd" = true
      ∧ (Effect.mkdir "/repo/out" true
            ∈ ({ ok := 0, fail := 0, console := [], effects := [], tick := 0 } : LoopState).effects
          ∨ anyReachesMkdir cfgA envA ["/repo/diagrams/a.mmd"]
              ({ ok := 0, fail := 0, console := [], effects := [], tick := 0 } : LoopState).tick
              = true) :=
  c10_mkdir_lazy_recursive_before_write cfgA envA 0 0
    "/repo/diagrams/a.mmd" "/repo/diagrams/a.mmd" "/repo/out/a.png" "/repo/out" "/repo/out"
    [137, 80, 78, 71] 4 true true ["/repo/diagrams/a.mmd"]
    { ok := 0, fail := 0, console := [], effects := [], tick := 0 }
    (by decide) (by decide) (by decide)
